import Mathlib

/-!
Shallow embedding of the `monad` package of gpr3211/funcy-go
(`src/monad/monad_future.go` and `src/monad/safe.go`) and proofs about it.

The Go `Future[A]` is a single-assignment container: `NewFuture` launches
the computation on a goroutine which stores `(value, err)` into the struct
exactly once, sets `done`, and closes `waitChan`.  `Get` blocks on
`waitChan` and then reads the stored pair.  Since the computation runs
exactly once and every read happens after the one completion event, a
completed handle is fully determined by its stored `(value, err)` pair;
the outcome-level model below identifies a `Future` with that pair.
A separate explicit trace model (`FutureState`, `writerTrace`) embeds the
writer goroutine's sequence of field mutations for the completion
invariant.  Go zero values (`*new(A)`) are modelled by `Inhabited.default`.
-/

namespace FuncyGo

/-- Go `error` values.  Go compares errors by identity: `fmt.Errorf` returns
a freshly allocated value each call, distinct (under `==`) from every other
live error even when messages coincide.  `allocId` models that allocation
identity; `msg` the message text. -/
structure GoError where
  allocId : Nat
  msg : String
deriving DecidableEq, Repr

/-- Outcome-level model of `Future[A]` from `monad_future.go`: the pair the
completed handle stores (`value` and `err`; `done`/`waitChan`/`mutex` are
the completion mechanism and are modelled in `FutureState`/`writerTrace`). -/
structure Future (A : Type) where
  value : A
  err : Option GoError
deriving DecidableEq, Repr

/-- Embeds `NewFuture`: the spawned goroutine runs `compute` once and stores
its `(value, err)` result into the handle, which is what every later read
observes. -/
def NewFuture {A : Type} (compute : Unit → A × Option GoError) : Future A :=
  { value := (compute ()).1, err := (compute ()).2 }

/-- Embeds `(f *Future[A]) Get`: blocks until completion, then returns the
stored value-and-error pair. -/
def Get {A : Type} (f : Future A) : A × Option GoError :=
  (f.value, f.err)

/-- Error synthesized by `GetWithTimeout`'s timeout branch:
`fmt.Errorf("timeout waiting for future")`, allocated fresh at the call. -/
def timeoutError (fresh : Nat) : GoError :=
  { allocId := fresh, msg := "timeout waiting for future" }

/-- Embeds `(f *Future[A]) GetWithTimeout`.  The `select` races `f.waitChan`
against `time.After(timeout)`; the boolean `timedOut` records which branch
was taken (`true` when the timeout fired before completion).  `fresh` is the
allocation identity of the error `fmt.Errorf` creates on the timeout branch.
Both branches of the source only read the handle (`RLock`), never write;
the call is modelled state-passing, returning the handle state after the
call, to make the absence of writes visible. -/
def GetWithTimeout {A : Type} [Inhabited A] (f : Future A) (timedOut : Bool)
    (fresh : Nat) : (A × Option GoError) × Future A :=
  if timedOut then (((default : A), some (timeoutError fresh)), f)
  else ((f.value, f.err), f)

/-- Embeds `Map`: the new handle's computation waits on `f.Get()`; a non-nil
error is returned with the zero value of `B`, otherwise `fn` is applied. -/
def Map {A B : Type} [Inhabited B] (f : Future A) (fn : A → B) : Future B :=
  NewFuture (fun _ =>
    let r := Get f
    match r.2 with
    | some e => ((default : B), some e)
    | none => (fn r.1, none))

/-- Embeds `FlatMap`: the new handle's computation waits on `f.Get()`; a
non-nil error is returned with the zero value of `B`, otherwise
`fn(value).Get()` is returned verbatim. -/
def FlatMap {A B : Type} [Inhabited B] (f : Future A) (fn : A → Future B) :
    Future B :=
  NewFuture (fun _ =>
    let r := Get f
    match r.2 with
    | some e => ((default : B), some e)
    | none => Get (fn r.1))

/-- Embeds `Successful`: a handle built by `NewFuture` from a computation
returning `(value, nil)` immediately. -/
def Successful {A : Type} (value : A) : Future A :=
  NewFuture (fun _ => (value, none))

/-- Embeds `Failed`: a handle built by `NewFuture` from a computation
returning `(*new(A), err)` immediately. -/
def Failed {A : Type} [Inhabited A] (err : GoError) : Future A :=
  NewFuture (fun _ => ((default : A), some err))

/-- Body of `Sequence`'s computation: iterate over the futures in argument
order; `future.Get()` on each; on the first non-nil error return
`(nil, err)` at once (the nil slice is the empty list); if all succeed,
`results[i]` holds input `i`'s value. -/
def sequenceCompute {A : Type} : List (Future A) → List A × Option GoError
  | [] => ([], none)
  | f :: rest =>
    let r := Get f
    match r.2 with
    | some e => ([], some e)
    | none =>
      match sequenceCompute rest with
      | (_, some e) => ([], some e)
      | (vs, none) => (r.1 :: vs, none)

/-- Embeds `Sequence`: a `NewFuture` whose computation is `sequenceCompute`
over the argument list. -/
def Sequence {A : Type} (futures : List (Future A)) : Future (List A) :=
  NewFuture (fun _ => sequenceCompute futures)

/-- Instrumentation of `Sequence`'s loop, following the same control flow as
`sequenceCompute`: counts how many of the input futures have `Get` called
on them (are awaited) before the computation returns.  The loop awaits each
future in order and returns immediately after the first failing one. -/
def sequenceAwaited {A : Type} : List (Future A) → Nat
  | [] => 0
  | f :: rest =>
    match (Get f).2 with
    | some _ => 1
    | none => 1 + sequenceAwaited rest

/-! Trace model of the writer goroutine spawned by `NewFuture`, for the
completion invariant.  The goroutine runs `compute`, takes the mutex, and in
program order assigns `f.value`, `f.err`, `f.done = true`, then unlocks and
closes `waitChan`.  `FutureState` carries the three data fields of the
struct; `writerSteps` is the goroutine's sequence of field mutations;
`writerTrace` is the resulting sequence of states.  Readers block on
`waitChan`, which is closed only after all three steps, so every waiter
reads the final state of the trace. -/

/-- Data fields of the Go `Future` struct: `value`, `err`, `done` (the
mutex and channel are the synchronization mechanism, not data). -/
structure FutureState (A : Type) where
  value : A
  err : Option GoError
  done : Bool
deriving DecidableEq, Repr

/-- State of a freshly constructed handle: Go zero values (`value` zero,
`err` nil, `done` false). -/
def initialState {A : Type} [Inhabited A] : FutureState A :=
  { value := default, err := none, done := false }

/-- Field mutations performed by the goroutine of `NewFuture`, in program
order, once `compute` has returned `(v, e)`: assign `value`, assign `err`,
set `done` to true.  No further mutation follows. -/
def writerSteps {A : Type} (v : A) (e : Option GoError) :
    List (FutureState A → FutureState A) :=
  [ fun s => { s with value := v },
    fun s => { s with err := e },
    fun s => { s with done := true } ]

/-- Sequence of handle states produced by running `writerSteps` from the
initial state. -/
def writerTrace {A : Type} [Inhabited A] (v : A) (e : Option GoError) :
    List (FutureState A) :=
  List.scanl (fun s step => step s) initialState (writerSteps v e)

/-- Number of false-to-true transitions of the `done` flag along a trace. -/
def doneFlips {A : Type} : List (FutureState A) → Nat
  | s1 :: s2 :: rest =>
    (if s1.done = false ∧ s2.done = true then 1 else 0) + doneFlips (s2 :: rest)
  | _ => 0

/-- What a waiter's `Get` reads from a completed state: the stored
value-and-error pair. -/
def readGet {A : Type} (s : FutureState A) : A × Option GoError :=
  (s.value, s.err)

/-! Embedding of `src/monad/safe.go`. -/

/-- Modelled from the spec: the companion optional-value monad (the file
defining it is not under `src/`); `Maybe` is its optional-value type with
the two shapes `safe.go` constructs via `Just` and `Nothing`. -/
inductive Maybe (A : Type) where
  | just (a : A)
  | nothing
deriving DecidableEq, Repr

/-- Modelled from the spec: `Just(value)` wraps a present value. -/
def Just {A : Type} (a : A) : Maybe A :=
  Maybe.just a

/-- Modelled from the spec: `Nothing[A]()` is the absent value. -/
def Nothing (A : Type) : Maybe A :=
  Maybe.nothing

/-- Go map indexing with the comma-ok form, `value, ok := m[key]`: the Go
map (unique keys) is modelled as an association list; a hit returns the
stored value with `true`, a miss the zero value of `V` with `false`. -/
def goMapIndex {K V : Type} [DecidableEq K] [Inhabited V]
    (m : List (K × V)) (key : K) : V × Bool :=
  match List.lookup key m with
  | some v => (v, true)
  | none => (default, false)

/-- Embeds `getFromMap`: comma-ok lookup; on a hit return `Just(value)`,
otherwise `Nothing[V]()`. -/
def getFromMap {K V : Type} [DecidableEq K] [Inhabited V]
    (m : List (K × V)) (key : K) : Maybe V :=
  match goMapIndex m key with
  | (value, true) => Just value
  | (_, false) => Nothing V

/-- Digit accumulator for `Atoi`: consumes decimal digits left to right,
failing on the first non-digit character. -/
def digitsToNatAux : List Char → Nat → Option Nat
  | [], acc => some acc
  | c :: rest, acc =>
    if c.isDigit then digitsToNatAux rest (acc * 10 + (c.toNat - 48))
    else none

/-- Smallest Go `int` (64-bit platform): `-2^63`. -/
def goIntMin : Int := -9223372036854775808

/-- Largest Go `int` (64-bit platform): `2^63 - 1`. -/
def goIntMax : Int := 9223372036854775807

/-- Syntax error of `strconv.Atoi` (a fresh `*NumError` wrapping
`ErrSyntax`; identity modelled with allocation id 0). -/
def atoiSyntaxError (s : String) : GoError :=
  { allocId := 0,
    msg := "strconv.Atoi: parsing \"" ++ s ++ "\": invalid syntax" }

/-- Range error of `strconv.Atoi` (a fresh `*NumError` wrapping
`ErrRange`; identity modelled with allocation id 0). -/
def atoiRangeError (s : String) : GoError :=
  { allocId := 0,
    msg := "strconv.Atoi: parsing \"" ++ s ++ "\": value out of range" }

/-- Modelled from the Go standard library: `strconv.Atoi(s)` on a 64-bit
platform, i.e. `ParseInt(s, 10, 0)`.  An optional leading sign followed by
at least one decimal digit; empty input, a bare sign, or any non-digit
character is a syntax error returning 0; a value outside the signed 64-bit
range is a range error returning the clamped bound; otherwise the parsed
integer with nil error. -/
def Atoi (s : String) : Int × Option GoError :=
  match s.data with
  | [] => (0, some (atoiSyntaxError s))
  | c :: rest =>
    let signedDigits : Bool × List Char :=
      if c = '-' then (true, rest)
      else if c = '+' then (false, rest)
      else (false, c :: rest)
    match signedDigits.2 with
    | [] => (0, some (atoiSyntaxError s))
    | d :: ds =>
      match digitsToNatAux (d :: ds) 0 with
      | none => (0, some (atoiSyntaxError s))
      | some n =>
        let v : Int := if signedDigits.1 then -(n : Int) else (n : Int)
        if v < goIntMin then (goIntMin, some (atoiRangeError s))
        else if goIntMax < v then (goIntMax, some (atoiRangeError s))
        else (v, none)

/-- Embeds `parseNumber`: `strconv.Atoi(s)`; when the error is nil return
`Just(num)`, otherwise `Nothing[int]()` — the error value is dropped. -/
def parseNumber (s : String) : Maybe Int :=
  match Atoi s with
  | (num, none) => Just num
  | (_, some _) => Nothing Int

/-! Helper lemmas about `sequenceCompute` and `sequenceAwaited`. -/

/-- When every input succeeds, the loop of `Sequence` collects the values in
argument order: index `i` of the output holds input `i`'s value. -/
theorem sequenceCompute_allOk {A : Type} :
    ∀ (futures : List (Future A)), (∀ f, f ∈ futures → (Get f).2 = none) →
      sequenceCompute futures = (futures.map (fun f => (Get f).1), none)
  | [], _ => rfl
  | f :: rest, h => by
    have hf : (Get f).2 = none := h f (List.mem_cons_self f rest)
    have ih := sequenceCompute_allOk rest (fun g hg => h g (List.mem_cons_of_mem f hg))
    simp [sequenceCompute, hf, ih]

/-- When the inputs before position `pre.length` all succeed and the input
there fails with `e`, the loop of `Sequence` returns `(nil, e)` having
called `Get` on exactly the first `pre.length + 1` inputs. -/
theorem sequenceCompute_firstFail {A : Type} (post : List (Future A))
    (f : Future A) (e : GoError) (hf : (Get f).2 = some e) :
    ∀ (pre : List (Future A)), (∀ g, g ∈ pre → (Get g).2 = none) →
      sequenceCompute (pre ++ f :: post) = ([], some e)
      ∧ sequenceAwaited (pre ++ f :: post) = pre.length + 1
  | [], _ => by
    constructor
    · simp [sequenceCompute, hf]
    · simp [sequenceAwaited, hf]
  | g :: pre, h => by
    have hg : (Get g).2 = none := h g (List.mem_cons_self g pre)
    have ih := sequenceCompute_firstFail post f e hf pre
      (fun g2 hg2 => h g2 (List.mem_cons_of_mem g hg2))
    constructor
    · simp [sequenceCompute, hg, ih.1]
    · simp [sequenceAwaited, hg, ih.2]
      omega

/-! Theorems settling the claims. -/

/-- Claim C7: `Sequence` applied to zero input handles produces a handle
that succeeds with an empty sequence and nil error. -/
theorem sequence_empty_spec : ∀ (A : Type),
    Get (Sequence ([] : List (Future A))) = ([], none) :=
  fun _ => rfl

/-- Claim C8: `Successful(v).Get()` returns `(v, nil)` on every call, any
number of times (the reads are of the one immutable completed state, so
any sequence of `n` calls yields `n` copies of the same pair), and
`Successful` and `Failed` are the handles `Construct` (`NewFuture`) builds
from computations that return immediately. -/
theorem successful_idempotent_spec :
    ∀ (A : Type) [inst : Inhabited A] (v : A) (e : GoError) (n : Nat),
      (List.replicate n ()).map (fun _ => Get (Successful v)) =
        List.replicate n (v, none)
      ∧ Successful v = NewFuture (fun _ => (v, none))
      ∧ (Failed e : Future A) = NewFuture (fun _ => ((default : A), some e)) := by
  intro A inst v e n
  refine ⟨?_, rfl, rfl⟩
  rw [List.map_replicate]
  rfl

/-- Claim C5: `Map(Failed(E), fn).Get()` yields the zero value of the
target type paired with `E` unchanged; the result does not depend on `fn`
(so `fn` is never invoked); on a successful input, `Map` applies `fn` to
the value and succeeds with the result. -/
theorem map_failure_spec :
    ∀ (A B : Type) [ia : Inhabited A] [ib : Inhabited B] (e : GoError)
      (fn fn2 : A → B),
      Get (Map (Failed e : Future A) fn) = ((default : B), some e)
      ∧ Map (Failed e : Future A) fn = Map (Failed e) fn2
      ∧ ∀ (f : Future A), (Get f).2 = none →
          Get (Map f fn) = (fn (Get f).1, none) := by
  intro A B ia ib e fn fn2
  refine ⟨rfl, rfl, ?_⟩
  intro f h
  simp only [Get] at h
  simp [Map, NewFuture, Get, h]

/-- Claim C5 witness: at concrete inputs, a failed handle maps to the zero
value with the error unchanged, and a successful one to the transformed
value. -/
theorem map_failure_witness :
    Get (Map (Failed (GoError.mk 7 "boom") : Future Nat) (fun x => x * 2)) =
      ((default : Nat), some (GoError.mk 7 "boom"))
    ∧ Get (Map (Successful (21 : Nat)) (fun x => x * 2)) = (42, none) := by
  obtain ⟨h1, _, h3⟩ :=
    map_failure_spec Nat Nat (GoError.mk 7 "boom") (fun x => x * 2) (fun x => x * 2)
  refine ⟨h1, ?_⟩
  have h := h3 (Successful 21) rfl
  rw [h]
  rfl

/-- Claim C4: `FlatMap` propagates an input failure without invoking the
bind function (the result does not depend on it); on input success the
outer handle adopts the inner handle's outcome verbatim; in particular
`FlatMap(Successful(5), n => Successful(n+1)).Get()` yields `(6, nil)`. -/
theorem flatMap_spec :
    ∀ (A B : Type) [ib : Inhabited B] (f : Future A) (fn fn2 : A → Future B),
      (∀ e, (Get f).2 = some e →
        Get (FlatMap f fn) = ((default : B), some e)
        ∧ FlatMap f fn = FlatMap f fn2)
      ∧ ((Get f).2 = none → Get (FlatMap f fn) = Get (fn (Get f).1))
      ∧ Get (FlatMap (Successful 5) (fun n => Successful (n + 1))) = (6, none) := by
  intro A B ib f fn fn2
  refine ⟨?_, ?_, rfl⟩
  · intro e he
    simp only [Get] at he
    constructor
    · simp [FlatMap, NewFuture, Get, he]
    · simp [FlatMap, NewFuture, Get, he]
  · intro h
    simp only [Get] at h
    simp [FlatMap, NewFuture, Get, h]

/-- Claim C4 witness: at concrete inputs, a failed handle short-circuits
with its error and `FlatMap(Successful(5), n => Successful(n+1))` yields
`(6, nil)`. -/
theorem flatMap_witness :
    Get (FlatMap (Failed (GoError.mk 4 "bad") : Future Nat)
        (fun n => Successful (n + 1))) =
      ((default : Nat), some (GoError.mk 4 "bad"))
    ∧ Get (FlatMap (Successful (5 : Nat)) (fun n => Successful (n + 1))) =
      (6, none) := by
  obtain ⟨h1, _, h3⟩ := flatMap_spec Nat Nat (Failed (GoError.mk 4 "bad"))
    (fun n => Successful (n + 1)) (fun n => Successful (n + 1))
  exact ⟨(h1 (GoError.mk 4 "bad") rfl).1, h3⟩

/-- Claim C6: when every input handle succeeds, `Sequence` places the
result of the input at index `i` at position `i` of the output, and
`Sequence(Successful(1), Successful(2), Successful(3)).Get()` yields
`([1,2,3], nil)`. -/
theorem sequence_ordering_spec :
    ∀ (A : Type) (futures : List (Future A)),
      ((∀ f, f ∈ futures → (Get f).2 = none) →
        Get (Sequence futures) = (futures.map (fun f => (Get f).1), none))
      ∧ Get (Sequence [Successful 1, Successful 2, Successful 3]) =
        ([1, 2, 3], none) := by
  intro A futures
  refine ⟨fun h => ?_, rfl⟩
  exact sequenceCompute_allOk futures h

/-- Claim C6 witness: at a concrete all-successful input list the output is
the list of the input values in argument order. -/
theorem sequence_ordering_witness :
    Get (Sequence [Successful (10 : Int), Successful 20, Successful 30]) =
      ([10, 20, 30], none) := by
  have h := (sequence_ordering_spec Int
    [Successful 10, Successful 20, Successful 30]).1 (by decide)
  rw [h]
  rfl

/-- Claim C1 (amended): the first failing input, scanned in argument order,
aborts the sequence: the output fails with that same error and the output
sequence is empty; the loop returns at that point, so inputs at later
indices are NOT awaited (`Get` is called on exactly the first failing
index plus the successful ones before it). -/
theorem sequence_short_circuit_spec :
    ∀ (A : Type) (pre post : List (Future A)) (f : Future A) (e : GoError),
      (∀ g, g ∈ pre → (Get g).2 = none) → (Get f).2 = some e →
      Get (Sequence (pre ++ f :: post)) = ([], some e)
      ∧ sequenceAwaited (pre ++ f :: post) = pre.length + 1 := by
  intro A pre post f e hpre hf
  have h := sequenceCompute_firstFail post f e hf pre hpre
  exact ⟨h.1, h.2⟩

/-- Claim C1 counterexample: on
`Sequence(Successful(1), Failed(E), Successful(3))` the output is
`(empty, E)` but only the first two inputs are awaited: the implementation
never calls `Get` on the input at index 2, refuting the claim that inputs
at later indices are still awaited. -/
theorem sequence_short_circuit_counterexample :
    Get (Sequence [Successful 1, Failed (GoError.mk 0 "E"), Successful (3 : Int)]) =
      ([], some (GoError.mk 0 "E"))
    ∧ sequenceAwaited
        [Successful 1, Failed (GoError.mk 0 "E"), Successful (3 : Int)] = 2
    ∧ ¬ sequenceAwaited
        [Successful 1, Failed (GoError.mk 0 "E"), Successful (3 : Int)] = 3 := by
  refine ⟨rfl, rfl, by decide⟩

/-- Claim C1 witness: at a concrete input with two successes before the
failure and two handles after it, the output fails with the first error,
the sequence is empty, and exactly three inputs are awaited. -/
theorem sequence_short_circuit_witness :
    Get (Sequence ([Successful 10, Successful 20] ++
        Failed (GoError.mk 1 "first") :: [Successful 40, Successful (50 : Int)])) =
      ([], some (GoError.mk 1 "first"))
    ∧ sequenceAwaited ([Successful 10, Successful 20] ++
        Failed (GoError.mk 1 "first") :: [Successful 40, Successful (50 : Int)]) =
      [Successful (10 : Int), Successful 20].length + 1 := by
  exact sequence_short_circuit_spec Int [Successful 10, Successful 20]
    [Successful 40, Successful 50] (Failed (GoError.mk 1 "first"))
    (GoError.mk 1 "first") (by decide) rfl

/-- Claim C2: when the timeout elapses before completion (the `select`
takes the timeout branch), `GetWithTimeout` returns the zero value of `T`
and the synthesized timeout failure; the timeout failure is a freshly
allocated error and therefore distinct from any computation failure (any
error of a different allocation identity); the call performs no write, so
the handle is unchanged, and a later `Get` on the same handle still
observes the computation's real outcome. -/
theorem getWithTimeout_timeout_spec :
    ∀ (A : Type) [inst : Inhabited A] (f : Future A) (fresh : Nat),
      (GetWithTimeout f true fresh).1 = ((default : A), some (timeoutError fresh))
      ∧ (∀ e : GoError, e.allocId ≠ fresh → timeoutError fresh ≠ e)
      ∧ (GetWithTimeout f true fresh).2 = f
      ∧ Get ((GetWithTimeout f true fresh).2) = (f.value, f.err) := by
  intro A inst f fresh
  refine ⟨rfl, ?_, rfl, rfl⟩
  intro e he hcontra
  exact he ((congrArg GoError.allocId hcontra).symm)

/-- Claim C2 witness: a handle that really failed with the computation
error `boom` (allocation 3), queried with an elapsed timeout whose fresh
error got allocation 99, yields the zero value and the timeout failure,
which differs from the stored computation failure, and the untouched
handle still answers `Get` with its real outcome. -/
theorem getWithTimeout_timeout_witness :
    (GetWithTimeout (Failed (GoError.mk 3 "boom") : Future Nat) true 99).1 =
      ((default : Nat), some (timeoutError 99))
    ∧ timeoutError 99 ≠ GoError.mk 3 "boom"
    ∧ Get ((GetWithTimeout (Failed (GoError.mk 3 "boom") : Future Nat) true 99).2) =
      ((default : Nat), some (GoError.mk 3 "boom")) := by
  obtain ⟨h1, h2, _, h4⟩ :=
    getWithTimeout_timeout_spec Nat (Failed (GoError.mk 3 "boom")) 99
  exact ⟨h1, h2 (GoError.mk 3 "boom") (by decide), h4⟩

/-- Claim C3: along the writer goroutine's trace the `done` flag goes from
false to true exactly once, at the last mutation, after `value` and `err`
already hold their final contents; no state follows the flip, so no field
is mutated after it; and every waiter observing completion — `Get`, or
`GetWithTimeout` whose `select` took the completion branch — reads the one
final state and hence the same value/error pair. -/
theorem completion_invariant_spec :
    ∀ (A : Type) [inst : Inhabited A] (v : A) (e : Option GoError),
      writerTrace v e =
        [ { value := default, err := none, done := false },
          { value := v, err := none, done := false },
          { value := v, err := e, done := false },
          { value := v, err := e, done := true } ]
      ∧ doneFlips (writerTrace v e) = 1
      ∧ readGet { value := v, err := e, done := true } = (v, e)
      ∧ (∀ (f : Future A) (fresh : Nat),
          (GetWithTimeout f false fresh).1 = Get f) := by
  intro A inst v e
  exact ⟨rfl, rfl, rfl, fun f fresh => rfl⟩

/-- Claim C9: `getFromMap(m, k)` returns `Just` of the value stored under
`k` when `k` is present in the map and `Nothing` when it is absent. -/
theorem getFromMap_spec :
    ∀ (K V : Type) [dk : DecidableEq K] [iv : Inhabited V]
      (m : List (K × V)) (key : K),
      (∀ v, List.lookup key m = some v → getFromMap m key = Just v)
      ∧ (List.lookup key m = none → getFromMap m key = Nothing V) := by
  intro K V dk iv m key
  constructor
  · intro v hv
    simp [getFromMap, goMapIndex, hv]
  · intro hn
    simp [getFromMap, goMapIndex, hn]

/-- Claim C9 witness: on the concrete map `{1 ↦ 10, 2 ↦ 20}` the present
key 2 yields `Just 20` and the absent key 5 yields `Nothing`. -/
theorem getFromMap_witness :
    getFromMap ([(1, 10), (2, 20)] : List (Nat × Nat)) 2 = Just 20
    ∧ getFromMap ([(1, 10), (2, 20)] : List (Nat × Nat)) 5 = Nothing Nat :=
  ⟨(getFromMap_spec Nat Nat [(1, 10), (2, 20)] 2).1 20 (by decide),
   (getFromMap_spec Nat Nat [(1, 10), (2, 20)] 5).2 (by decide)⟩

/-- Claim C10: `parseNumber(s)` returns `Just(n)` exactly when
`strconv.Atoi` parses `s` as the integer `n` with nil error, and `Nothing`
for every string `Atoi` rejects; the error value itself is dropped. -/
theorem parseNumber_spec :
    ∀ (s : String) (n : Int),
      (parseNumber s = Just n ↔ Atoi s = (n, none))
      ∧ (∀ e, (Atoi s).2 = some e → parseNumber s = Nothing Int) := by
  intro s n
  refine ⟨⟨?_, ?_⟩, ?_⟩
  · intro h
    cases hA : Atoi s with
    | mk v err =>
      cases err with
      | none =>
        have hp : parseNumber s = Just v := by simp [parseNumber, hA]
        rw [hp] at h
        have hv : v = n := by simpa [Just] using h
        rw [hv]
      | some e =>
        have hp : parseNumber s = Nothing Int := by simp [parseNumber, hA]
        rw [hp] at h
        exact absurd h (by simp [Just, Nothing])
  · intro h
    simp [parseNumber, h]
  · intro e he
    cases hA : Atoi s with
    | mk v err =>
      cases err with
      | none =>
        rw [hA] at he
        simp at he
      | some e2 =>
        simp [parseNumber, hA]

/-- Claim C10 witness: `"42"` parses to `Just 42` in agreement with `Atoi`,
and `"abc"`, which `Atoi` rejects with a syntax error, parses to
`Nothing`. -/
theorem parseNumber_witness :
    parseNumber "42" = Just 42
    ∧ parseNumber "abc" = Nothing Int :=
  ⟨((parseNumber_spec "42" 42).1).2 rfl,
   (parseNumber_spec "abc" 0).2 (atoiSyntaxError "abc") rfl⟩

end FuncyGo
